import Mathlib

/-!
Shallow embedding of src/SIFT.cpp (SIFT keypoint detector).

Images are modelled as a structure carrying the OpenCV `rows`/`cols` header
fields and a total pixel function `get : ℤ → ℤ → ℚ` mirroring
`Mat::at<float>(r, c)` (first argument is the row in OpenCV).  C++ `float`
arithmetic is idealised as exact rational arithmetic; out-of-range vector
indexing, which is undefined behaviour in C++, is modelled by `List.getD`
with a junk default.  Rational division by zero yields 0 in Lean while C
floats yield inf/NaN; no theorem below depends on that junk value except
where explicitly noted in a comment.

`cv::GaussianBlur` is an external OpenCV routine (not part of this
repository); the pyramid functions therefore take the blur as an explicit
function parameter `blur : Mat → ℚ → Mat` (image, sigma).  Theorems that
need facts about it (dimension preservation, zero preservation) state them
as hypotheses which hold for a genuine Gaussian filter.
-/

structure Mat where
  rows : ℕ
  cols : ℕ
  get : ℤ → ℤ → ℚ

/-- Junk matrix used as the `getD` default where the C++ source would index a
vector out of range (undefined behaviour). -/
def Mat.junk : Mat := ⟨0, 0, fun _ _ => 0⟩

/-- Mirrors cv::KeyPoint as used by the source: `KeyPoint(c, r, j, -1, 0, i)`
stores x, y, size (used as the interval label), angle, response, octave. -/
structure KeyPoint where
  x : ℚ
  y : ℚ
  size : ℚ
  angle : ℚ
  response : ℚ
  octave : ℤ
deriving DecidableEq

/-- Modelled from the spec: SIFT_INIT_SIGMA is the fixed initial blur sigma
(section 4.1), defined in SIFT.h which is not under src; its numeric value is
irrelevant to every claim. -/
def SIFT_INIT_SIGMA : ℚ := 1/2

/-- Modelled from the spec: SIFT_STEP_SIGMA is the fixed per-interval sigma
step factor (section 4.1), defined in SIFT.h which is not under src; its
numeric value is irrelevant to every claim. -/
def SIFT_STEP_SIGMA : ℚ := 2

/-- Modelled from the spec: INTERPOLATION_SIGMA is the fixed "interpolation"
sigma used by down-sampling (section 4.1), defined in SIFT.h which is not
under src; its numeric value is irrelevant to every claim. -/
def INTERPOLATION_SIGMA : ℚ := 3/2

/-- Modelled from the spec: SIFT_IMG_BORDER is the border margin B of the
extrema scan (section 4.3), defined in SIFT.h which is not under src. -/
def SIFT_IMG_BORDER : ℕ := 5

/-- Modelled from the spec: SIFT_HIST_BOREDER (sic, source spelling) is the
orientation window half-size W (section 4.5), defined in SIFT.h which is not
under src. -/
def SIFT_HIST_BOREDER : ℕ := 8

/-- Modelled from the spec: PI is a numeric constant from the missing header;
its value only enters the angle surrogates, which no claim inspects. -/
def PI : ℚ := 355/113

/-- Models the C++ float-to-int conversion, which truncates toward zero.
For a rational with positive denominator, `num / den` with integer division
truncates toward zero. -/
def truncInt (q : ℚ) : ℤ := q.num / (q.den : ℤ)

/-- Vector indexing `dog_pyr[o][j]` with an integer interval index (the
extrema test reads `interval + i` for i in {-1,0,1}).  Negative or
out-of-range indices are undefined behaviour in C++; modelled by the junk
default.  Every claim only exercises in-range indices. -/
def imgAtZ (dog_pyr : List (List Mat)) (octave : ℕ) (interval : ℤ) : Mat :=
  (dog_pyr.getD octave []).getD interval.toNat Mat.junk

/-- Lines 114-117 and 122-125: the neighbour read
`dog_pyr[octave][interval + i].at<float>(r + j, c + k)`. -/
def neighborVal (dog_pyr : List (List Mat)) (octave interval : ℕ)
    (r c i j k : ℤ) : ℚ :=
  (imgAtZ dog_pyr octave ((interval : ℤ) + i)).get (r + j) (c + k)

/-- Loop bounds of the three nested neighbour loops (lines 114-116). -/
def neighborOffsets : List ℤ := [-1, 0, 1]

/-- SIFT::isExtrema (lines 108-130).  Note the guard `(j != 0 || k != 0)`:
a comparison can only disqualify the pixel when the spatial offset (j,k) is
nonzero, so the two neighbours at intervals `interval ± 1` that share the
centre's spatial position are never compared. -/
def isExtrema (dog_pyr : List (List Mat)) (octave interval : ℕ)
    (r c : ℤ) : Bool :=
  let intensity := (imgAtZ dog_pyr octave (interval : ℤ)).get r c
  if 0 < intensity then
    neighborOffsets.all fun i => neighborOffsets.all fun j =>
      neighborOffsets.all fun k =>
        !(decide (intensity ≤ neighborVal dog_pyr octave interval r c i j k)
          && (decide (j ≠ 0) || decide (k ≠ 0)))
  else
    neighborOffsets.all fun i => neighborOffsets.all fun j =>
      neighborOffsets.all fun k =>
        !(decide (neighborVal dog_pyr octave interval r c i j k ≤ intensity)
          && (decide (j ≠ 0) || decide (k ≠ 0)))

/-- Specification-side predicate for claim C1 as written: with centre value
v > 0 the pixel is an extremum iff v is strictly greater than every one of
the 26 neighbours of the 3×3×3 block (centre excluded); with v ≤ 0 iff
strictly less. -/
def extremaSpec26 (dog_pyr : List (List Mat)) (octave interval : ℕ)
    (r c : ℤ) : Bool :=
  let v := (imgAtZ dog_pyr octave (interval : ℤ)).get r c
  if 0 < v then
    neighborOffsets.all fun i => neighborOffsets.all fun j =>
      neighborOffsets.all fun k =>
        (decide (i = 0 ∧ j = 0 ∧ k = 0)
          || decide (neighborVal dog_pyr octave interval r c i j k < v))
  else
    neighborOffsets.all fun i => neighborOffsets.all fun j =>
      neighborOffsets.all fun k =>
        (decide (i = 0 ∧ j = 0 ∧ k = 0)
          || decide (v < neighborVal dog_pyr octave interval r c i j k))

/-- Specification-side predicate for claim C1 as amended: only the 24
neighbours with a nonzero spatial offset (j,k) ≠ (0,0) are required to be
strictly below (resp. above) the centre value; the two neighbours at
intervals `interval ± 1` sharing the centre's spatial position are not
compared. -/
def extremaSpec24 (dog_pyr : List (List Mat)) (octave interval : ℕ)
    (r c : ℤ) : Bool :=
  let v := (imgAtZ dog_pyr octave (interval : ℤ)).get r c
  if 0 < v then
    neighborOffsets.all fun i => neighborOffsets.all fun j =>
      neighborOffsets.all fun k =>
        (decide (j = 0 ∧ k = 0)
          || decide (neighborVal dog_pyr octave interval r c i j k < v))
  else
    neighborOffsets.all fun i => neighborOffsets.all fun j =>
      neighborOffsets.all fun k =>
        (decide (j = 0 ∧ k = 0)
          || decide (v < neighborVal dog_pyr octave interval r c i j k))

/-- Line 189: `fxx = image.at(rx-1, ry) + image.at(rx+1, ry) - 2*image.at(rx, ry)`
with rx = position.x, ry = position.y (the source indexes `at` with x as the
row coordinate here; the embedding mirrors that literally). -/
def fxxAt (px py : ℤ) (image : Mat) : ℚ :=
  image.get (px - 1) py + image.get (px + 1) py - 2 * image.get px py

/-- Line 190: `fyy = image.at(rx, ry-1) + image.at(rx, ry+1) - 2*image.at(rx, ry)`. -/
def fyyAt (px py : ℤ) (image : Mat) : ℚ :=
  image.get px (py - 1) + image.get px (py + 1) - 2 * image.get px py

/-- Lines 191-192: `fxy = image.at(rx-1, ry-1) + image.at(rx+1, ry+1)
- image.at(rx-1, ry+1) - image.at(rx+1, ry-1)`. -/
def fxyAt (px py : ℤ) (image : Mat) : ℚ :=
  image.get (px - 1) (py - 1) + image.get (px + 1) (py + 1)
    - image.get (px - 1) (py + 1) - image.get (px + 1) (py - 1)

/-- Line 194: `trace = fxx + fyy`. -/
def hessianTrace (px py : ℤ) (image : Mat) : ℚ :=
  fxxAt px py image + fyyAt px py image

/-- Line 195: `deter = (fxx * fyy) - (fxy * fxy)`. -/
def hessianDeter (px py : ℤ) (image : Mat) : ℚ :=
  fxxAt px py image * fyyAt px py image - fxyAt px py image * fxyAt px py image

/-- Lines 181-196: in SIFT::cleanPoints the division `trace * trace / deter`
sits on the unconditional path of the else-branch, so it is evaluated exactly
when the contrast test `|image.at(position)| < cont_thr` fails, before any
comparison of the determinant.  `image.at<float>(position)` with a cv::Point
reads row = position.y, col = position.x. -/
def divisionEvaluated (px py : ℤ) (image : Mat) (cont_thr : ℚ) : Bool :=
  !(decide (|image.get py px| < cont_thr))

/-- SIFT::cleanPoints (lines 176-205).  The curvature ratio is computed
before the determinant is compared with `dtr_thr` (line 196 precedes line
198); rational division by zero yields 0 where C floats would yield inf/NaN,
and no theorem below depends on the value of the ratio when `deter` is at or
below the floor, except where a comment says so. -/
def cleanPoints (px py : ℤ) (image : Mat)
    (curv_thr cont_thr dtr_thr : ℚ) : Bool :=
  if |image.get py px| < cont_thr then
    false
  else
    let deter := hessianDeter px py image
    let curvature := hessianTrace px py image * hessianTrace px py image / deter
    if deter < dtr_thr ∨ curv_thr < curvature then false else true

/-- Scan coordinates of one spatial axis of the extrema search (lines
152-154): `for (x = SIFT_IMG_BORDER; x < n - SIFT_IMG_BORDER; x++)` over C++
ints; for n < 2·border the loop body never runs, which the truncated ℕ
subtraction reproduces. -/
def scanCoords (n : ℕ) : List ℕ :=
  List.range' SIFT_IMG_BORDER ((n - SIFT_IMG_BORDER) - SIFT_IMG_BORDER)

/-- SIFT::getScaleSpaceExtrema (lines 143-163).  Octave loop, interior
interval loop `j = 1..intervals`, row/column scan bounded by
`dog_pyr[i][0]`, extremum test then validation, and
`keypoints.push_back(KeyPoint(c, r, j, -1, 0, i))`.  The contrast and
determinant thresholds are the defaulted trailing parameters of
cleanPoints (their default values live in the missing SIFT.h). -/
def getScaleSpaceExtrema (dog_pyr : List (List Mat))
    (curv_thr cont_thr dtr_thr : ℚ) : List KeyPoint :=
  (List.range dog_pyr.length).flatMap fun i =>
    (List.range' 1 ((dog_pyr.headD []).length - 2)).flatMap fun j =>
      (scanCoords (imgAtZ dog_pyr i 0).rows).flatMap fun r =>
        (scanCoords (imgAtZ dog_pyr i 0).cols).filterMap fun c =>
          if isExtrema dog_pyr i j (r : ℤ) (c : ℤ)
              && cleanPoints (c : ℤ) (r : ℤ) (imgAtZ dog_pyr i (j : ℤ))
                  curv_thr cont_thr dtr_thr then
            some ⟨(c : ℚ), (r : ℚ), (j : ℚ), -1, 0, (i : ℤ)⟩
          else
            none

/-- SIFT::downSample (lines 442-461): blur with INTERPOLATION_SIGMA, then
keep every second column (`temp.col(i) = blurred.col(2i)`, width
`cols / 2`), then keep every second row (`resized.row(i) = temp.row(2i)`,
height `rows / 2`). -/
def downSample (blur : Mat → ℚ → Mat) (image : Mat) : Mat :=
  let blurredImage := blur image INTERPOLATION_SIGMA
  let temp : Mat :=
    ⟨blurredImage.rows, blurredImage.cols / 2,
      fun r c => blurredImage.get r (2 * c)⟩
  ⟨temp.rows / 2, temp.cols, fun r c => temp.get (2 * r) c⟩

/-- Specification-side operation for claim C6: retain every second column. -/
def keepAlternateCols (m : Mat) : Mat :=
  ⟨m.rows, m.cols / 2, fun r c => m.get r (2 * c)⟩

/-- Specification-side operation for claim C6: retain every second row. -/
def keepAlternateRows (m : Mat) : Mat :=
  ⟨m.rows / 2, m.cols, fun r c => m.get (2 * r) c⟩

/-- Sigma used by the j-th blur of an octave (lines 47, 53, 55): sigma starts
at SIFT_INIT_SIGMA and is multiplied by SIFT_STEP_SIGMA after each interval. -/
def sigmaAt (j : ℕ) : ℚ := SIFT_INIT_SIGMA * SIFT_STEP_SIGMA ^ j

/-- Inner interval loop of SIFT::buildGaussianPyramid (lines 50-56): each of
the nIntervals + 3 images is the blur of the octave's current base image
`tempImage` at the running sigma. -/
def octaveImages (blur : Mat → ℚ → Mat) (tempImage : Mat)
    (nIntervals : ℕ) : List Mat :=
  (List.range (nIntervals + 3)).map fun j => blur tempImage (sigmaAt j)

/-- Octave loop of SIFT::buildGaussianPyramid (lines 45-60): push the octave's
intervals, then `tempImage = downSample(tempImage)` for the next octave. -/
def buildGaussianPyramidAux (blur : Mat → ℚ → Mat) (tempImage : Mat)
    (nIntervals : ℕ) : ℕ → List (List Mat)
  | 0 => []
  | n + 1 =>
    octaveImages blur tempImage nIntervals
      :: buildGaussianPyramidAux blur (downSample blur tempImage) nIntervals n

/-- SIFT::buildGaussianPyramid (lines 39-61).  The function performs no
validation of its arguments whatsoever: there is no check of nOctaves,
nIntervals or the image dimensions, no exception and no error return (the
C++ function returns void and only appends to gauss_pyr). -/
def buildGaussianPyramid (blur : Mat → ℚ → Mat) (image : Mat)
    (nOctaves nIntervals : ℕ) : List (List Mat) :=
  buildGaussianPyramidAux blur image nIntervals nOctaves

/-- Pixelwise cv::Mat subtraction `gauss_pyr[i][j] - gauss_pyr[i][j+1]`
(line 85); the result carries the dimensions of the left operand. -/
def matSub (a b : Mat) : Mat :=
  ⟨a.rows, a.cols, fun r c => a.get r c - b.get r c⟩

/-- SIFT::buildDogPyr (lines 73-92): `nIntervals` is read from
`gauss_pyr[0].size()` and each octave contributes `nIntervals - 1`
consecutive differences. -/
def buildDogPyr (gauss_pyr : List (List Mat)) : List (List Mat) :=
  gauss_pyr.map fun octv =>
    (List.range ((gauss_pyr.headD []).length - 1)).map fun j =>
      matSub (octv.getD j Mat.junk) (octv.getD (j + 1) Mat.junk)

/-- SIFT::rad2deg (lines 409-416): negative radians are wrapped by adding
2·PI, then scaled by 360 / (2·PI). -/
def rad2deg (rad : ℚ) : ℚ :=
  (if rad < 0 then rad + 2 * PI else rad) * (360 / (2 * PI))

/-- Modelled from the spec: atan2f is supplied by the C math library, not by
this repository.  The spec only uses that the gradient angle is a function of
(dy, dx) later converted to degrees; the true arctangent is irrational, so we
use an executable rational surrogate.  No claim inspects its values. -/
def atan2Q (y x : ℚ) : ℚ :=
  if |x| + |y| = 0 then 0 else PI * y / (|x| + |y|)

/-- Modelled from the spec: sqrt(dx² + dy²) (line 308) is irrational; the
magnitude entries are never inspected by any claim, so we keep the squared
magnitude as an executable surrogate. -/
def magnitudeOf (dx dy : ℚ) : ℚ := dx * dx + dy * dy

/-- Lines 304-305: `diffx = image.at(keyx + i + 1 - W, keyy - W + j)
- image.at(keyx + i - 1 - W, keyy - W + j)` with W = SIFT_HIST_BOREDER.
Note that keyx (the keypoint's x coordinate) is used as the FIRST argument
of `at`, i.e. as the row index. -/
def diffxAt (image : Mat) (keyx keyy i j : ℤ) : ℚ :=
  image.get (keyx + i + 1 - (SIFT_HIST_BOREDER : ℤ))
      (keyy - (SIFT_HIST_BOREDER : ℤ) + j)
    - image.get (keyx + i - 1 - (SIFT_HIST_BOREDER : ℤ))
      (keyy - (SIFT_HIST_BOREDER : ℤ) + j)

/-- Lines 306-307: `diffy = image.at(keyx - W + i, keyy + j + 1 - W)
- image.at(keyx - W + i, keyy + j - 1 - W)`. -/
def diffyAt (image : Mat) (keyx keyy i j : ℤ) : ℚ :=
  image.get (keyx - (SIFT_HIST_BOREDER : ℤ) + i)
      (keyy + j + 1 - (SIFT_HIST_BOREDER : ℤ))
    - image.get (keyx - (SIFT_HIST_BOREDER : ℤ) + i)
      (keyy + j - 1 - (SIFT_HIST_BOREDER : ℤ))

/-- Lines 293-294: the window bounds test
`!(keyx - W - 1 < 0 || keyx + W + 1 > image.cols ||
   keyy - W - 1 < 0 || keyy + W + 1 > image.rows)`. -/
def windowFits (image : Mat) (keyx keyy : ℤ) : Bool :=
  !(decide (keyx - (SIFT_HIST_BOREDER : ℤ) - 1 < 0)
    || decide ((image.cols : ℤ) < keyx + (SIFT_HIST_BOREDER : ℤ) + 1)
    || decide (keyy - (SIFT_HIST_BOREDER : ℤ) - 1 < 0)
    || decide ((image.rows : ℤ) < keyy + (SIFT_HIST_BOREDER : ℤ) + 1))

/-- Lines 296-313: the 2W × 2W gradient-angle grid `tempGradient`
(`gradient = rad2deg(atan2f(diffy, diffx))`). -/
def gradPatch (image : Mat) (keyx keyy : ℤ) : Mat :=
  ⟨2 * SIFT_HIST_BOREDER, 2 * SIFT_HIST_BOREDER,
    fun i j => rad2deg (atan2Q (diffyAt image keyx keyy i j)
      (diffxAt image keyx keyy i j))⟩

/-- Lines 296-313: the 2W × 2W gradient-magnitude grid `tempMagnitude`. -/
def magPatch (image : Mat) (keyx keyy : ℤ) : Mat :=
  ⟨2 * SIFT_HIST_BOREDER, 2 * SIFT_HIST_BOREDER,
    fun i j => magnitudeOf (diffxAt image keyx keyy i j)
      (diffyAt image keyx keyy i j)⟩

/-- The exact list of index pairs (first `at` argument, second `at` argument)
read from the difference-pyramid image by the patch fill of lines 298-313:
the four reads of lines 304-307 for every i, j in [0, 2W). -/
def orientationReads (keyx keyy : ℤ) : List (ℤ × ℤ) :=
  (List.range (2 * SIFT_HIST_BOREDER)).flatMap fun i =>
    (List.range (2 * SIFT_HIST_BOREDER)).flatMap fun j =>
      [(keyx + (i : ℤ) + 1 - (SIFT_HIST_BOREDER : ℤ),
          keyy - (SIFT_HIST_BOREDER : ℤ) + (j : ℤ)),
        (keyx + (i : ℤ) - 1 - (SIFT_HIST_BOREDER : ℤ),
          keyy - (SIFT_HIST_BOREDER : ℤ) + (j : ℤ)),
        (keyx - (SIFT_HIST_BOREDER : ℤ) + (i : ℤ),
          keyy + (j : ℤ) + 1 - (SIFT_HIST_BOREDER : ℤ)),
        (keyx - (SIFT_HIST_BOREDER : ℤ) + (i : ℤ),
          keyy + (j : ℤ) - 1 - (SIFT_HIST_BOREDER : ℤ))]

/-- Row-major pixel traversal of a matrix (lines 258-260: rows outer,
columns inner). -/
def rcPairs (rows cols : ℕ) : List (ℕ × ℕ) :=
  (List.range rows).flatMap fun i => (List.range cols).map fun j => (i, j)

/-- One `histo[index]++` step of SIFT::buildHistogram (lines 262-263):
`int index = matrix.at<float>(i, j) / range` converts the float quotient to
int, truncating toward zero.  An out-of-range index is undefined behaviour
in C++; the embedding leaves the histogram unchanged there (`List.set` is a
no-op out of range, and a negative index is skipped explicitly). -/
def histAdd (histo : List ℚ) (v : ℚ) (range : ℤ) : List ℚ :=
  let index := truncInt (v / (range : ℚ))
  if 0 ≤ index then
    histo.set index.toNat (histo.getD index.toNat 0 + 1)
  else
    histo

/-- SIFT::buildHistogram (lines 248-268): `size = maximum / range` bins,
zero-initialised, then one occurrence count per matrix entry. -/
def buildHistogram (matrix : Mat) (range maximum : ℤ) : List ℚ :=
  (rcPairs matrix.rows matrix.cols).foldl
    (fun histo p => histAdd histo (matrix.get (p.1 : ℤ) (p.2 : ℤ)) range)
    (List.replicate (maximum / range).toNat 0)

/-- Loop body of SIFT::histogramMax (lines 226-233): `maximum` is an int
reference, so the update `maximum = histogram[i]` truncates the double to
int (toward zero), while the comparison `maximum < histogram[i]` promotes
the int back to double. -/
def histFoldStep (histogram : List ℚ) (mi : ℤ × ℕ) (i : ℕ) : ℤ × ℕ :=
  if (mi.1 : ℚ) < histogram.getD i 0 then
    (truncInt (histogram.getD i 0), i)
  else
    mi

/-- SIFT::histogramMax (lines 221-234): `maximum = histogram[0]` (an
int-truncating initialisation, line 223), `indexMax = 0`, then the scan of
all bins in index order.  Returns the pair (maximum, indexMax).  Reading
`histogram[0]` of an empty vector is undefined behaviour in C++; the junk
default 0 stands in for it, and the function is only ever applied to the
36-bin histograms of buildHistogram. -/
def histogramMax (histogram : List ℚ) : ℤ × ℕ :=
  (List.range histogram.length).foldl (histFoldStep histogram)
    (truncInt (histogram.getD 0 0), 0)

/-- Line 289: `Mat image = dog_pyr[keypoints[z].octave][keypoints[z].size]`;
the float `size` field is converted to a vector index (truncation), and the
int `octave` field indexes the outer vector. -/
def assignedImage (dog_pyr : List (List Mat)) (kp : KeyPoint) : Mat :=
  imgAtZ dog_pyr kp.octave.toNat (truncInt kp.size)

/-- Body of the keypoint loop of SIFT::computeOrientationHist (lines
287-325) for one keypoint: if the window test passes, build the patches,
take `histogramMax` of the gradient histogram (range 10, maximum 360) and
set `angle = indexMax * range + range / 2` (integer arithmetic); otherwise
leave the keypoint untouched and produce no patch.  The pair component
records the (gradient, magnitude) patches pushed onto the detector's
member vectors, modelled as returned data. -/
def processKeypoint (dog_pyr : List (List Mat)) (kp : KeyPoint) :
    KeyPoint × Option (Mat × Mat) :=
  let image := assignedImage dog_pyr kp
  let keyx := truncInt kp.x
  let keyy := truncInt kp.y
  if windowFits image keyx keyy then
    let histo := buildHistogram (gradPatch image keyx keyy) 10 360
    ({ kp with
        angle := ((((histogramMax histo).2 : ℤ) * 10 + 10 / 2 : ℤ) : ℚ) },
      some (gradPatch image keyx keyy, magPatch image keyx keyy))
  else
    (kp, none)

/-- SIFT::computeOrientationHist (lines 282-327).  Returns the updated
keypoint collection together with the lists of gradient and magnitude
patches accumulated (in keypoint order) for the keypoints whose window
fits; the C++ stores those two lists in the detector members
keypointsGradients / keypointsMagnitudes. -/
def computeOrientationHist (dog_pyr : List (List Mat))
    (keypoints : List KeyPoint) :
    List KeyPoint × List Mat × List Mat :=
  (keypoints.map fun kp => (processKeypoint dog_pyr kp).1,
    keypoints.filterMap fun kp =>
      ((processKeypoint dog_pyr kp).2).map Prod.fst,
    keypoints.filterMap fun kp =>
      ((processKeypoint dog_pyr kp).2).map Prod.snd)

/-- Abbreviation for the orientation histogram of one keypoint (line 319):
the 10-degree, 360-degree-domain histogram of its gradient-angle patch. -/
def orientationHisto (dog_pyr : List (List Mat)) (kp : KeyPoint) : List ℚ :=
  buildHistogram
    (gradPatch (assignedImage dog_pyr kp) (truncInt kp.x) (truncInt kp.y))
    10 360

/-- Abbreviation for the orientation assigned on lines 322-324:
`indexMax * range + range / 2` in int arithmetic, stored into the float
angle field. -/
def assignedAngle (dog_pyr : List (List Mat)) (kp : KeyPoint) : ℚ :=
  ((((histogramMax (orientationHisto dog_pyr kp)).2 : ℤ) * 10 + 10 / 2 : ℤ) : ℚ)

/-- Property of the external blur collaborator: cv::GaussianBlur returns an
image of the same dimensions as its input. -/
def PreservesDims (blur : Mat → ℚ → Mat) : Prop :=
  ∀ m s, (blur m s).rows = m.rows ∧ (blur m s).cols = m.cols

/-- An image all of whose samples are zero. -/
def AllZero (m : Mat) : Prop := ∀ r c : ℤ, m.get r c = 0

/-- Property of the external blur collaborator: cv::GaussianBlur maps an
all-zero image to an all-zero image (its output is a weighted average of
input samples). -/
def PreservesZero (blur : Mat → ℚ → Mat) : Prop :=
  ∀ m s, AllZero m → AllZero (blur m s)

/-- A pyramid all of whose images (junk defaults included) are all-zero. -/
def AllZeroPyr (p : List (List Mat)) : Prop :=
  ∀ (o : ℕ) (jz : ℤ), AllZero (imgAtZ p o jz)

/-- Claim C9's property, packaged: for every octave/interval count and every
threshold configuration, the difference pyramid built from the image is
identically zero and the extrema scan reports no candidate keypoints. -/
def ZeroDetection (blur : Mat → ℚ → Mat) (image : Mat) : Prop :=
  ∀ (nOctaves nIntervals : ℕ) (curv_thr cont_thr dtr_thr : ℚ),
    AllZeroPyr (buildDogPyr (buildGaussianPyramid blur image nOctaves nIntervals))
    ∧ getScaleSpaceExtrema
        (buildDogPyr (buildGaussianPyramid blur image nOctaves nIntervals))
        curv_thr cont_thr dtr_thr = []

/-- Claim C5's property, packaged: the difference pyramid built from the
Gaussian pyramid has the same octave count, nIntervals + 2 images per
octave, is the pixelwise difference of consecutive pyramid intervals, and
each difference image carries the dimensions of its pyramid octave. -/
def DogPyramidSpec (blur : Mat → ℚ → Mat) (image : Mat)
    (nOctaves nIntervals : ℕ) : Prop :=
  (buildDogPyr (buildGaussianPyramid blur image nOctaves nIntervals)).length
      = nOctaves
  ∧ (∀ o, o < nOctaves →
      ((buildDogPyr (buildGaussianPyramid blur image nOctaves nIntervals)).getD
          o []).length = nIntervals + 2)
  ∧ (∀ o j, o < nOctaves → j < nIntervals + 2 → ∀ r c : ℤ,
      (((buildDogPyr (buildGaussianPyramid blur image nOctaves nIntervals)).getD
          o []).getD j Mat.junk).get r c
        = (((buildGaussianPyramid blur image nOctaves nIntervals).getD
            o []).getD j Mat.junk).get r c
          - (((buildGaussianPyramid blur image nOctaves nIntervals).getD
              o []).getD (j + 1) Mat.junk).get r c)
  ∧ (∀ o j, o < nOctaves → j < nIntervals + 2 →
      (((buildDogPyr (buildGaussianPyramid blur image nOctaves nIntervals)).getD
          o []).getD j Mat.junk).rows
        = (((buildGaussianPyramid blur image nOctaves nIntervals).getD
            o []).getD 0 Mat.junk).rows
      ∧ (((buildDogPyr (buildGaussianPyramid blur image nOctaves nIntervals)).getD
          o []).getD j Mat.junk).cols
        = (((buildGaussianPyramid blur image nOctaves nIntervals).getD
            o []).getD 0 Mat.junk).cols)

/-- Claim C6's factorisation property, packaged: down-sampling is exactly
blur with the interpolation sigma, then keep every second column, then keep
every second row, in that order. -/
def DownSampleFactorization (blur : Mat → ℚ → Mat) : Prop :=
  ∀ image, downSample blur image
    = keepAlternateRows (keepAlternateCols (blur image INTERPOLATION_SIGMA))

/-- Claim C6's halving property, packaged: every image of pyramid octave
o + 1 has floor(rows / 2) × floor(cols / 2) of octave o's dimensions. -/
def OctaveHalving (blur : Mat → ℚ → Mat) (image : Mat)
    (nOctaves nIntervals : ℕ) : Prop :=
  ∀ o j, o + 1 < nOctaves → j < nIntervals + 3 →
    (((buildGaussianPyramid blur image nOctaves nIntervals).getD
        (o + 1) []).getD j Mat.junk).rows
      = (((buildGaussianPyramid blur image nOctaves nIntervals).getD
          o []).getD 0 Mat.junk).rows / 2
    ∧ (((buildGaussianPyramid blur image nOctaves nIntervals).getD
        (o + 1) []).getD j Mat.junk).cols
      = (((buildGaussianPyramid blur image nOctaves nIntervals).getD
          o []).getD 0 Mat.junk).cols / 2

/-- Index i holds the first maximum of the histogram: every bin is bounded
by bin i, and every bin strictly before i is strictly below it. -/
def IsFirstMaxIndex (h : List ℚ) (i : ℕ) : Prop :=
  i < h.length
  ∧ (∀ t, t < h.length → h.getD t 0 ≤ h.getD i 0)
  ∧ (∀ t, t < i → h.getD t 0 < h.getD i 0)

/-- A histogram whose entries are (casts of) natural numbers, as produced by
the occurrence counting of buildHistogram. -/
def NatValued (l : List ℚ) : Prop := ∀ x ∈ l, ∃ n : ℕ, x = (n : ℚ)

/-- Invariant of the histogramMax scan after the first n loop iterations:
the tracked maximum is the value of the tracked index, it bounds the first
n bins, and every bin strictly before the tracked index is strictly below
it. -/
def HistInv (h : List ℚ) (n : ℕ) (s : ℤ × ℕ) : Prop :=
  s.2 < h.length
  ∧ (s.1 : ℚ) = h.getD s.2 0
  ∧ (∀ t, t < n → h.getD t 0 ≤ (s.1 : ℚ))
  ∧ (∀ t, t < s.2 → h.getD t 0 < (s.1 : ℚ))

/-- Claim C10's property as written: every patch-fill read addresses a row
index (first `at` argument) inside [0, rows) and a column index inside
[0, cols). -/
def ReadsInBoundsAsClaimed (image : Mat) (keyx keyy : ℤ) : Prop :=
  ∀ p ∈ orientationReads keyx keyy,
    0 ≤ p.1 ∧ p.1 < (image.rows : ℤ) ∧ 0 ≤ p.2 ∧ p.2 < (image.cols : ℤ)

/-- Claim C10's property as amended: after the window test the first `at`
argument is bounded by cols and the second by rows — the axes of the guard
are swapped relative to the reads, so in-bounds access is guaranteed only
when rows = cols. -/
def ReadsInBoundsSwapped (image : Mat) (keyx keyy : ℤ) : Prop :=
  ∀ p ∈ orientationReads keyx keyy,
    0 ≤ p.1 ∧ p.1 < (image.cols : ℤ) ∧ 0 ≤ p.2 ∧ p.2 < (image.rows : ℤ)

/-- Identity stand-in for the external blur, used by concrete witnesses
(it trivially preserves dimensions and zeroes). -/
def idBlur : Mat → ℚ → Mat := fun m _ => m

/-- All-zero image of the given dimensions. -/
def zeroMat (rows cols : ℕ) : Mat := ⟨rows, cols, fun _ _ => 0⟩

/-- Constant-one 3×3 image (claim C2's failing input: full contrast, flat
curvature, zero determinant). -/
def onesMat3 : Mat := ⟨3, 3, fun _ _ => 1⟩

/-- Middle difference image of claim C1's counterexample: a single positive
centre sample. -/
def c1ImgMid : Mat := ⟨12, 12, fun r c => if r = 5 ∧ c = 5 then 1 else 0⟩

/-- Top difference image of claim C1's counterexample: the sample directly
above the centre (same spatial position, next interval) is larger than the
centre. -/
def c1ImgTop : Mat := ⟨12, 12, fun r c => if r = 5 ∧ c = 5 then 2 else 0⟩

/-- One-octave difference pyramid for claim C1's counterexample. -/
def c1Dog : List (List Mat) := [[zeroMat 12 12, c1ImgMid, c1ImgTop]]

/-- Claim C3's counterexample image: at position (1,1) the discrete Hessian
is fxx = fyy = 1, fxy = 0, so deter = 1 and trace²/deter = 4. -/
def c3Image : Mat :=
  ⟨3, 3, fun r c => if (r = 0 ∧ c = 1) ∨ (r = 1 ∧ c = 0) then 1 else 0⟩

/-- A 1×1 image: repeated halving degenerates it immediately (claim C4). -/
def oneByOne : Mat := ⟨1, 1, fun _ _ => 1⟩

/-- A 20-row, 40-column image for claim C10's counterexample. -/
def wideImage : Mat := ⟨20, 40, fun _ _ => 0⟩

/-- A centred keypoint of an 18×18 image (orientation window fits). -/
def kpCentered : KeyPoint := ⟨9, 9, 0, -1, 0, 0⟩

/-- One-image difference pyramid over an 18×18 zero image. -/
def dogSmall : List (List Mat) := [[zeroMat 18 18]]

/-- A keypoint one pixel from the corner of a 4×4 image (orientation window
does not fit). -/
def kpCorner : KeyPoint := ⟨1, 1, 0, -1, 0, 0⟩

/-- One-image difference pyramid over a 4×4 zero image. -/
def dogTiny : List (List Mat) := [[zeroMat 4 4]]
/-- Pointwise form of the isExtrema loop guard: a comparison term of the
source loop equals the corresponding 24-neighbour specification term. -/
theorem extrema_guard_pointwise (v nb : ℚ) (j k : ℤ) :
    (!(decide (v ≤ nb) && (decide (j ≠ 0) || decide (k ≠ 0))))
      = (decide (j = 0 ∧ k = 0) || decide (nb < v)) := by
  rcases le_or_lt v nb with hv | hv
  · have h1 : ¬ nb < v := not_lt.mpr hv
    by_cases hj : j = 0 <;> by_cases hk : k = 0 <;> simp [hv, h1, hj, hk]
  · have h2 : ¬ v ≤ nb := not_le.mpr hv
    by_cases hj : j = 0 <;> by_cases hk : k = 0 <;> simp [hv, h2, hj, hk]

/-- Claim C1 (amended): a scanned pixel is reported as an extremum iff its
value is strictly greater (for v > 0; strictly less for v ≤ 0) than every
one of the 24 neighbours of the 3×3×3 block whose spatial offset is
nonzero; the two neighbours at intervals j − 1 and j + 1 sharing the
centre's spatial position are never compared. -/
theorem isExtrema_matches_spec24 (dog_pyr : List (List Mat))
    (octave interval : ℕ) (r c : ℤ) :
    isExtrema dog_pyr octave interval r c
      = extremaSpec24 dog_pyr octave interval r c := by
  unfold isExtrema extremaSpec24
  by_cases h : 0 < (imgAtZ dog_pyr octave (interval : ℤ)).get r c
  · simp only [if_pos h]
    apply congrArg
    funext i
    apply congrArg
    funext j
    apply congrArg
    funext k
    exact extrema_guard_pointwise _ _ j k
  · simp only [if_neg h]
    apply congrArg
    funext i
    apply congrArg
    funext j
    apply congrArg
    funext k
    exact extrema_guard_pointwise _ _ j k

/-- Claim C1 (counterexample): in the pyramid c1Dog the centre pixel
(octave 0, interval 1, row 5, col 5) has positive value, lies inside the
scanned region of a 12×12 image, is reported as an extremum by the code,
yet is not strictly greater than all 26 neighbours of the 3×3×3 block (the
same-position sample of the next interval is larger). -/
theorem isExtrema_claimC1_counterexample :
    0 < (imgAtZ c1Dog 0 1).get 5 5
    ∧ (5 : ℕ) ∈ scanCoords (imgAtZ c1Dog 0 0).rows
    ∧ isExtrema c1Dog 0 1 5 5 = true
    ∧ extremaSpec26 c1Dog 0 1 5 5 = false := by
  refine ⟨by decide, by decide, by decide, by decide⟩
/-- Claim C2 (code bug): on the constant-one 3×3 image at position (1,1)
with cont_thr = 1/2, the contrast test passes, so the division
trace²/deter of line 196 is evaluated, although the Hessian determinant is
0, i.e. not above any determinant floor ≥ 0: the division is not guarded
by the determinant check (line 198 runs after it).  With the thresholds
curv_thr = 10, dtr_thr = 0 the point is even accepted (in C the 0/0
division yields NaN, and both guard comparisons on NaN are false, so the
C++ code accepts it as well). -/
theorem cleanPoints_division_reached_at_low_det :
    divisionEvaluated 1 1 onesMat3 (1/2) = true
    ∧ hessianDeter 1 1 onesMat3 ≤ 0
    ∧ cleanPoints 1 1 onesMat3 10 (1/2) 0 = true := by
  refine ⟨?_, ?_, ?_⟩
  · norm_num [divisionEvaluated, onesMat3]
  · norm_num [hessianDeter, fxxAt, fyyAt, fxyAt, onesMat3]
  · norm_num [cleanPoints, hessianDeter, hessianTrace, fxxAt, fyyAt, fxyAt, onesMat3]

/-- Claim C3 (counterexample): a candidate whose Hessian determinant equals
the configured floor (deter = dtr_thr = 1, so deter ≤ floor) is accepted by
cleanPoints, because line 198 rejects only on the strict comparison
`deter < dtr_thr`. -/
theorem cleanPoints_accepts_det_at_floor :
    hessianDeter 1 1 c3Image ≤ 1
    ∧ cleanPoints 1 1 c3Image 10 0 1 = true := by
  refine ⟨?_, ?_⟩
  · norm_num [hessianDeter, fxxAt, fyyAt, fxyAt, c3Image]
  · norm_num [cleanPoints, hessianDeter, hessianTrace, fxxAt, fyyAt, fxyAt, c3Image]

/-- Claim C3 (amended): the Keypoint Validator rejects every candidate whose
computed 2×2 Hessian determinant is strictly less than the configured
determinant floor, regardless of the candidate's contrast value. -/
theorem cleanPoints_rejects_below_floor (px py : ℤ) (image : Mat)
    (curv_thr cont_thr dtr_thr : ℚ)
    (h : hessianDeter px py image < dtr_thr) :
    cleanPoints px py image curv_thr cont_thr dtr_thr = false := by
  unfold cleanPoints
  by_cases hc : |image.get py px| < cont_thr
  · simp [hc]
  · simp [hc, h]

/-- Claim C3 (witness): the amended theorem applied at a concrete input
with determinant 0 strictly below the floor 1. -/
theorem cleanPoints_rejects_below_floor_witness :
    hessianDeter 1 1 (zeroMat 3 3) < 1
    ∧ cleanPoints 1 1 (zeroMat 3 3) 10 0 1 = false := by
  have h : hessianDeter 1 1 (zeroMat 3 3) < 1 := by
    norm_num [hessianDeter, fxxAt, fyyAt, fxyAt, zeroMat]
  exact ⟨h, cleanPoints_rejects_below_floor 1 1 (zeroMat 3 3) 10 0 1 h⟩

/-- Claim C4 (code bug): buildGaussianPyramid performs no precondition
validation at all.  Called with nIntervals = 0 (violating nIntervals ≥ 1)
and a 1×1 image that cannot survive halving over 3 octaves, it returns
normally — no error of any kind — and silently produces corrupt geometry:
3 octaves whose later octaves consist of 0×0 images. -/
theorem buildGaussianPyramid_silent_degenerate :
    (buildGaussianPyramid idBlur oneByOne 3 0).length = 3
    ∧ ((buildGaussianPyramid idBlur oneByOne 3 0).getD 0 []).length = 3
    ∧ (((buildGaussianPyramid idBlur oneByOne 3 0).getD 1 []).getD 0 Mat.junk).rows = 0
    ∧ (((buildGaussianPyramid idBlur oneByOne 3 0).getD 1 []).getD 0 Mat.junk).cols = 0
    ∧ (((buildGaussianPyramid idBlur oneByOne 3 0).getD 2 []).getD 0 Mat.junk).rows = 0 := by
  refine ⟨by decide, by decide, by decide, by decide, by decide⟩

/-- Claim C10 (counterexample): on a 20-row, 40-column image the keypoint
(keyx, keyy) = (30, 10) passes the window bounds test of lines 293-294, yet
the very first patch-fill read of line 304 addresses the index pair
(23, 2), whose first coordinate — the row argument of Mat::at — is not
inside [0, rows): the guard bounds keyx by cols while the reads use keyx
as the row index. -/
theorem orientationReads_out_of_bounds :
    windowFits wideImage 30 10 = true
    ∧ ((23 : ℤ), (2 : ℤ)) ∈ orientationReads 30 10
    ∧ ¬ ((23 : ℤ) < (wideImage.rows : ℤ)) := by
  refine ⟨by decide, by decide, by decide⟩
/-- Claim C10 (amended): for every keypoint passing the window bounds test,
every patch-fill read addresses a first `at` argument inside [0, cols) and
a second inside [0, rows) — the axes of the guard are swapped relative to
the reads, so the reads are within bounds exactly on square images. -/
theorem orientationReads_bounds_swapped (image : Mat) (keyx keyy : ℤ)
    (h : windowFits image keyx keyy = true) :
    ReadsInBoundsSwapped image keyx keyy := by
  have hb : 0 ≤ keyx - 9 ∧ keyx + 9 ≤ (image.cols : ℤ)
      ∧ 0 ≤ keyy - 9 ∧ keyy + 9 ≤ (image.rows : ℤ) := by
    simp only [windowFits, SIFT_HIST_BOREDER, Bool.not_eq_true',
      Bool.or_eq_false_iff, decide_eq_false_iff_not, not_lt] at h
    push_cast at h
    omega
  intro p hp
  simp only [orientationReads, SIFT_HIST_BOREDER, List.mem_flatMap,
    List.mem_range, List.mem_cons, List.not_mem_nil, or_false] at hp
  obtain ⟨i, hi, j, hj, hp⟩ := hp
  have hi' : (i : ℤ) < 16 := by exact_mod_cast hi
  have hj' : (j : ℤ) < 16 := by exact_mod_cast hj
  have hi0 : (0 : ℤ) ≤ (i : ℤ) := Int.natCast_nonneg i
  have hj0 : (0 : ℤ) ≤ (j : ℤ) := Int.natCast_nonneg j
  obtain ⟨h1, h2, h3, h4⟩ := hb
  rcases hp with hp | hp | hp | hp <;> subst hp <;>
    refine ⟨by push_cast; omega, by push_cast; omega,
      by push_cast; omega, by push_cast; omega⟩

/-- Claim C10 (witness): the amended bounds property applied to a centred
keypoint of a square 18×18 image. -/
theorem orientationReads_bounds_swapped_witness :
    windowFits (zeroMat 18 18) 9 9 = true
    ∧ ReadsInBoundsSwapped (zeroMat 18 18) 9 9 :=
  ⟨by decide, orientationReads_bounds_swapped (zeroMat 18 18) 9 9 (by decide)⟩
/-- The octave loop pushes exactly one interval list per octave. -/
theorem buildGaussianPyramidAux_length (blur : Mat → ℚ → Mat)
    (nIntervals : ℕ) :
    ∀ (n : ℕ) (t : Mat),
      (buildGaussianPyramidAux blur t nIntervals n).length = n := by
  intro n
  induction n with
  | zero => intro t; rfl
  | succ n ih =>
    intro t
    simp [buildGaussianPyramidAux, ih]

/-- Each octave holds nIntervals + 3 blurred images. -/
theorem octaveImages_length (blur : Mat → ℚ → Mat) (t : Mat)
    (nIntervals : ℕ) :
    (octaveImages blur t nIntervals).length = nIntervals + 3 := by
  simp [octaveImages]

/-- Reading the j-th element of a mapped range. -/
theorem getD_map_range {α : Type} (n j : ℕ) (f : ℕ → α) (d : α)
    (hj : j < n) :
    ((List.range n).map f).getD j d = f j := by
  rw [List.getD_eq_getElem?_getD, List.getElem?_map, List.getElem?_range hj]
  rfl

/-- Reading the o-th element of a mapped list. -/
theorem getD_map_lt {α β : Type} (f : α → β) (l : List α) (o : ℕ)
    (d : β) (d' : α) (h : o < l.length) :
    (l.map f).getD o d = f (l.getD o d') := by
  rw [List.getD_eq_getElem?_getD, List.getElem?_map,
    List.getElem?_eq_getElem h, List.getD_eq_getElem l d' h]
  rfl

/-- Octave o of the pyramid is the interval list blurred from the o-fold
down-sample of the input image. -/
theorem buildGaussianPyramidAux_getD (blur : Mat → ℚ → Mat)
    (nIntervals : ℕ) :
    ∀ (n o : ℕ) (t : Mat), o < n →
      (buildGaussianPyramidAux blur t nIntervals n).getD o []
        = octaveImages blur ((downSample blur)^[o] t) nIntervals := by
  intro n
  induction n with
  | zero => intro o t h; omega
  | succ n ih =>
    intro o t h
    cases o with
    | zero => rfl
    | succ o =>
      show (buildGaussianPyramidAux blur (downSample blur t) nIntervals n).getD o []
        = octaveImages blur ((downSample blur)^[o + 1] t) nIntervals
      rw [ih o (downSample blur t) (by omega), Function.iterate_succ_apply]

/-- The j-th image of an octave built from base t is the blur of t at the
j-th running sigma. -/
theorem octaveImages_getD (blur : Mat → ℚ → Mat) (t : Mat)
    (nIntervals j : ℕ) (hj : j < nIntervals + 3) :
    (octaveImages blur t nIntervals).getD j Mat.junk = blur t (sigmaAt j) := by
  unfold octaveImages
  exact getD_map_range _ _ _ _ hj

/-- Down-sampling halves both dimensions (floor), provided the blur
preserves dimensions. -/
theorem downSample_dims (blur : Mat → ℚ → Mat) (hdim : PreservesDims blur)
    (m : Mat) :
    (downSample blur m).rows = m.rows / 2
      ∧ (downSample blur m).cols = m.cols / 2 := by
  obtain ⟨h1, h2⟩ := hdim m INTERPOLATION_SIGMA
  constructor
  · show (blur m INTERPOLATION_SIGMA).rows / 2 = m.rows / 2
    rw [h1]
  · show (blur m INTERPOLATION_SIGMA).cols / 2 = m.cols / 2
    rw [h2]

/-- Claim C6: down-sampling is exactly blur-with-interpolation-sigma, then
keep every second column, then keep every second row, in that order; and
every image of pyramid octave o + 1 has floor-halved dimensions of octave
o, for every octave pair of every pyramid the builder produces. -/
theorem downSample_order_and_octave_halving (blur : Mat → ℚ → Mat)
    (hdim : PreservesDims blur) :
    DownSampleFactorization blur
    ∧ ∀ image nOctaves nIntervals,
        OctaveHalving blur image nOctaves nIntervals := by
  constructor
  · intro image
    rfl
  · intro image nOctaves nIntervals o j ho hj
    unfold buildGaussianPyramid
    rw [buildGaussianPyramidAux_getD blur nIntervals nOctaves (o + 1) image ho,
      buildGaussianPyramidAux_getD blur nIntervals nOctaves o image (by omega),
      octaveImages_getD blur _ nIntervals j hj,
      octaveImages_getD blur _ nIntervals 0 (by omega),
      Function.iterate_succ_apply']
    obtain ⟨hr1, hc1⟩ := hdim ((downSample blur) ((downSample blur)^[o] image)) (sigmaAt j)
    obtain ⟨hr0, hc0⟩ := hdim ((downSample blur)^[o] image) (sigmaAt 0)
    obtain ⟨hr2, hc2⟩ := downSample_dims blur hdim ((downSample blur)^[o] image)
    rw [hr1, hc1, hr0, hc0, hr2, hc2]
    exact ⟨rfl, rfl⟩

/-- Claim C6 (witness): the factorisation and halving applied with the
identity stand-in blur; e.g. it halves a 5×9 image to 2×4. -/
theorem downSample_order_and_octave_halving_witness :
    PreservesDims idBlur
    ∧ DownSampleFactorization idBlur
    ∧ ∀ image nOctaves nIntervals, OctaveHalving idBlur image nOctaves nIntervals := by
  have hdim : PreservesDims idBlur := fun m s => ⟨rfl, rfl⟩
  exact ⟨hdim, downSample_order_and_octave_halving idBlur hdim⟩
/-- The default head of a list is its 0-th default read. -/
theorem headD_eq_getD_zero {α : Type} (l : List α) (d : α) :
    l.headD d = l.getD 0 d := by
  cases l <;> rfl

/-- Claim C5: the difference pyramid built from any pyramid the builder
produces has the builder's octave count, nIntervals + 2 images per octave,
each the pixelwise difference of pyramid intervals j and j + 1, each with
the spatial dimensions of its pyramid octave. -/
theorem buildDogPyr_spec_holds (blur : Mat → ℚ → Mat) (image : Mat)
    (nOctaves nIntervals : ℕ) (hdim : PreservesDims blur)
    (hO : 0 < nOctaves) :
    DogPyramidSpec blur image nOctaves nIntervals := by
  have hglen : (buildGaussianPyramid blur image nOctaves nIntervals).length
      = nOctaves := buildGaussianPyramidAux_length blur nIntervals nOctaves image
  have hlen0 : ((buildGaussianPyramid blur image nOctaves nIntervals).headD
      []).length = nIntervals + 3 := by
    rw [headD_eq_getD_zero]
    unfold buildGaussianPyramid
    rw [buildGaussianPyramidAux_getD blur nIntervals nOctaves 0 image hO]
    exact octaveImages_length blur _ nIntervals
  have h32 : nIntervals + 3 - 1 = nIntervals + 2 := by omega
  have hdog : ∀ o, o < nOctaves →
      (buildDogPyr (buildGaussianPyramid blur image nOctaves nIntervals)).getD
          o []
        = (List.range (nIntervals + 2)).map (fun j => matSub
            (((buildGaussianPyramid blur image nOctaves nIntervals).getD
              o []).getD j Mat.junk)
            (((buildGaussianPyramid blur image nOctaves nIntervals).getD
              o []).getD (j + 1) Mat.junk)) := by
    intro o ho
    unfold buildDogPyr
    rw [hlen0, h32, getD_map_lt _ _ o [] [] (by omega)]
  unfold DogPyramidSpec
  refine ⟨?_, ?_, ?_, ?_⟩
  · unfold buildDogPyr
    rw [List.length_map, hglen]
  · intro o ho
    rw [hdog o ho, List.length_map, List.length_range]
  · intro o j ho hj r c
    rw [hdog o ho, getD_map_range _ _ _ _ hj]
    rfl
  · intro o j ho hj
    rw [hdog o ho, getD_map_range _ _ _ _ hj]
    have hoct : (buildGaussianPyramid blur image nOctaves nIntervals).getD o []
        = octaveImages blur ((downSample blur)^[o] image) nIntervals := by
      unfold buildGaussianPyramid
      exact buildGaussianPyramidAux_getD blur nIntervals nOctaves o image ho
    rw [hoct, octaveImages_getD blur _ nIntervals j (by omega),
      octaveImages_getD blur _ nIntervals 0 (by omega)]
    obtain ⟨ha1, ha2⟩ := hdim ((downSample blur)^[o] image) (sigmaAt j)
    obtain ⟨hb1, hb2⟩ := hdim ((downSample blur)^[o] image) (sigmaAt 0)
    constructor
    · show (blur ((downSample blur)^[o] image) (sigmaAt j)).rows = _
      rw [ha1, hb1]
    · show (blur ((downSample blur)^[o] image) (sigmaAt j)).cols = _
      rw [ha2, hb2]

/-- Claim C5 (witness): the difference-pyramid specification applied to a
two-octave, one-interval pyramid over a 4×4 image with the identity
stand-in blur. -/
theorem buildDogPyr_spec_holds_witness :
    PreservesDims idBlur ∧ 0 < 2 ∧ DogPyramidSpec idBlur (zeroMat 4 4) 2 1 :=
  ⟨fun m s => ⟨rfl, rfl⟩, by omega,
    buildDogPyr_spec_holds idBlur (zeroMat 4 4) 2 1 (fun m s => ⟨rfl, rfl⟩)
      (by omega)⟩
/-- The junk matrix is all-zero. -/
theorem allZero_junk : AllZero Mat.junk := fun _ _ => rfl

/-- A default read from a list of all-zero images is all-zero. -/
theorem allZero_getD (l : List Mat) (h : ∀ m ∈ l, AllZero m) (i : ℕ) :
    AllZero (l.getD i Mat.junk) := by
  by_cases hi : i < l.length
  · rw [List.getD_eq_getElem l Mat.junk hi]
    exact h _ (List.getElem_mem hi)
  · rw [List.getD_eq_default l Mat.junk (by omega)]
    exact allZero_junk

/-- A pyramid whose members are all-zero is all-zero under indexed reads. -/
theorem allZeroPyr_of_mem (p : List (List Mat))
    (h : ∀ octv ∈ p, ∀ m ∈ octv, AllZero m) : AllZeroPyr p := by
  intro o jz
  unfold imgAtZ
  apply allZero_getD
  by_cases ho : o < p.length
  · rw [List.getD_eq_getElem p [] ho]
    exact h _ (List.getElem_mem ho)
  · rw [List.getD_eq_default p [] (by omega)]
    intro m hm
    exact absurd hm (List.not_mem_nil m)

/-- Down-sampling an all-zero image yields an all-zero image, provided the
blur preserves zero. -/
theorem downSample_allZero (blur : Mat → ℚ → Mat) (hz : PreservesZero blur)
    (m : Mat) (hm : AllZero m) : AllZero (downSample blur m) := by
  intro r c
  show (blur m INTERPOLATION_SIGMA).get (2 * r) (2 * c) = 0
  exact hz m INTERPOLATION_SIGMA hm _ _

/-- Every image of the Gaussian pyramid over an all-zero base is all-zero,
provided the blur preserves zero. -/
theorem gauss_pyramid_allZero (blur : Mat → ℚ → Mat) (nIntervals : ℕ)
    (hz : PreservesZero blur) :
    ∀ (n : ℕ) (t : Mat), AllZero t →
      ∀ octv ∈ buildGaussianPyramidAux blur t nIntervals n,
        ∀ m ∈ octv, AllZero m := by
  intro n
  induction n with
  | zero =>
    intro t _ octv hoctv
    exact absurd hoctv (List.not_mem_nil _)
  | succ n ih =>
    intro t ht octv hoctv
    rcases List.mem_cons.mp hoctv with h1 | h1
    · subst h1
      intro m hm
      obtain ⟨j, _, rfl⟩ := List.mem_map.mp hm
      exact hz t _ ht
    · exact ih (downSample blur t) (downSample_allZero blur hz t ht) octv h1

/-- Every image of the difference pyramid of an all-zero pyramid is
all-zero. -/
theorem buildDogPyr_allZero (g : List (List Mat))
    (hg : ∀ octv ∈ g, ∀ m ∈ octv, AllZero m) :
    ∀ octv ∈ buildDogPyr g, ∀ m ∈ octv, AllZero m := by
  intro octv hoctv m hm
  unfold buildDogPyr at hoctv
  obtain ⟨goct, hgoct, rfl⟩ := List.mem_map.mp hoctv
  obtain ⟨j, _, rfl⟩ := List.mem_map.mp hm
  intro r c
  show (goct.getD j Mat.junk).get r c - (goct.getD (j + 1) Mat.junk).get r c = 0
  rw [allZero_getD goct (hg goct hgoct) j r c,
    allZero_getD goct (hg goct hgoct) (j + 1) r c, sub_zero]

/-- On an all-zero difference pyramid the extremum test always fails: the
centre value 0 is not strictly above or below its (zero) neighbours. -/
theorem isExtrema_allZero (dog_pyr : List (List Mat))
    (hdog : AllZeroPyr dog_pyr) (o itv : ℕ) (r c : ℤ) :
    isExtrema dog_pyr o itv r c = false := by
  have h0 : (imgAtZ dog_pyr o (itv : ℤ)).get r c = 0 := hdog o (itv : ℤ) r c
  have hn : ∀ i j k : ℤ, neighborVal dog_pyr o itv r c i j k = 0 :=
    fun i j k => hdog o ((itv : ℤ) + i) (r + j) (c + k)
  simp only [isExtrema, h0, hn]
  decide

/-- On an all-zero difference pyramid the extrema scan reports nothing. -/
theorem getScaleSpaceExtrema_allZero (dog_pyr : List (List Mat))
    (hdog : AllZeroPyr dog_pyr) (curv_thr cont_thr dtr_thr : ℚ) :
    getScaleSpaceExtrema dog_pyr curv_thr cont_thr dtr_thr = [] := by
  unfold getScaleSpaceExtrema
  rw [List.flatMap_eq_nil_iff]
  intro i _
  rw [List.flatMap_eq_nil_iff]
  intro j _
  rw [List.flatMap_eq_nil_iff]
  intro r _
  rw [List.filterMap_eq_nil_iff]
  intro c _
  rw [isExtrema_allZero dog_pyr hdog i j (r : ℤ) (c : ℤ)]
  rfl

/-- Claim C9: for an all-zero input image the blurred pyramid and the
difference pyramid are identically zero and the Extrema Detector reports
zero candidate keypoints at every octave and interval, for every pyramid
shape and every threshold configuration. -/
theorem zero_image_detects_nothing (blur : Mat → ℚ → Mat) (image : Mat)
    (hz : PreservesZero blur) (him : AllZero image) :
    ZeroDetection blur image := by
  intro nOctaves nIntervals curv_thr cont_thr dtr_thr
  have hg := gauss_pyramid_allZero blur nIntervals hz nOctaves image him
  have hdp : AllZeroPyr
      (buildDogPyr (buildGaussianPyramid blur image nOctaves nIntervals)) :=
    allZeroPyr_of_mem _ (buildDogPyr_allZero _ hg)
  exact ⟨hdp, getScaleSpaceExtrema_allZero _ hdp curv_thr cont_thr dtr_thr⟩

/-- Claim C9 (witness): the zero-detection property applied to a 12×12
all-zero image with the identity stand-in blur. -/
theorem zero_image_detects_nothing_witness :
    PreservesZero idBlur ∧ AllZero (zeroMat 12 12)
    ∧ ZeroDetection idBlur (zeroMat 12 12) :=
  ⟨fun _ _ hm => hm, fun _ _ => rfl,
    zero_image_detects_nothing idBlur (zeroMat 12 12) (fun _ _ hm => hm)
      (fun _ _ => rfl)⟩
/-- Truncating conversion of a natural-number-valued rational is exact. -/
theorem truncInt_natCast (n : ℕ) : truncInt (n : ℚ) = n := by
  simp [truncInt, Rat.num_natCast, Rat.den_natCast]

/-- Any default read of a natural-valued histogram is a natural number. -/
theorem natValued_getD_exists (l : List ℚ) (hnv : NatValued l) (i : ℕ) :
    ∃ n : ℕ, l.getD i 0 = (n : ℚ) := by
  by_cases hi : i < l.length
  · have hm : l.getD i 0 ∈ l := by
      rw [List.getD_eq_getElem l 0 hi]
      exact List.getElem_mem hi
    exact hnv _ hm
  · refine ⟨0, ?_⟩
    rw [List.getD_eq_default l 0 (by omega)]
    norm_num

/-- The int truncation of a bin of a natural-valued histogram casts back to
the bin value. -/
theorem truncInt_getD_cast (l : List ℚ) (hnv : NatValued l) (i : ℕ) :
    ((truncInt (l.getD i 0) : ℤ) : ℚ) = l.getD i 0 := by
  obtain ⟨n, hn⟩ := natValued_getD_exists l hnv i
  rw [hn, truncInt_natCast]
  norm_num

/-- One counting step keeps the histogram natural-valued. -/
theorem natValued_histAdd (l : List ℚ) (hnv : NatValued l) (v : ℚ)
    (range : ℤ) : NatValued (histAdd l v range) := by
  unfold histAdd
  by_cases h0 : 0 ≤ truncInt (v / (range : ℚ))
  · simp only [if_pos h0]
    intro x hx
    rcases List.mem_or_eq_of_mem_set hx with hmem | heq
    · exact hnv x hmem
    · obtain ⟨n, hn⟩ :=
        natValued_getD_exists l hnv (truncInt (v / (range : ℚ))).toNat
      refine ⟨n + 1, ?_⟩
      rw [heq, hn]
      push_cast
      ring
  · simp only [if_neg h0]
    exact hnv

/-- Counting over any pixel traversal keeps the histogram natural-valued. -/
theorem natValued_histfold (m : Mat) (range : ℤ) :
    ∀ (ps : List (ℕ × ℕ)) (init : List ℚ), NatValued init →
      NatValued (ps.foldl
        (fun histo p => histAdd histo (m.get (p.1 : ℤ) (p.2 : ℤ)) range)
        init) := by
  intro ps
  induction ps with
  | nil => intro init h; exact h
  | cons a l ih =>
    intro init h
    exact ih _ (natValued_histAdd init h _ range)

/-- The zero-initialised histogram is natural-valued. -/
theorem natValued_replicate (n : ℕ) :
    NatValued (List.replicate n (0 : ℚ)) := by
  intro x hx
  exact ⟨0, by simpa using List.eq_of_mem_replicate hx⟩

/-- Every histogram built by buildHistogram is natural-valued (it counts
occurrences). -/
theorem natValued_buildHistogram (m : Mat) (range maximum : ℤ) :
    NatValued (buildHistogram m range maximum) := by
  unfold buildHistogram
  exact natValued_histfold m range _ _ (natValued_replicate _)

/-- One counting step preserves the bin count. -/
theorem histAdd_length (l : List ℚ) (v : ℚ) (range : ℤ) :
    (histAdd l v range).length = l.length := by
  unfold histAdd
  by_cases h0 : 0 ≤ truncInt (v / (range : ℚ))
  · simp [if_pos h0]
  · simp [if_neg h0]

/-- Counting over any traversal preserves the bin count. -/
theorem histfold_length (m : Mat) (range : ℤ) :
    ∀ (ps : List (ℕ × ℕ)) (init : List ℚ),
      (ps.foldl
        (fun histo p => histAdd histo (m.get (p.1 : ℤ) (p.2 : ℤ)) range)
        init).length = init.length := by
  intro ps
  induction ps with
  | nil => intro init; rfl
  | cons a l ih =>
    intro init
    rw [List.foldl_cons, ih, histAdd_length]

/-- buildHistogram produces maximum / range bins. -/
theorem buildHistogram_length (m : Mat) (range maximum : ℤ) :
    (buildHistogram m range maximum).length = (maximum / range).toNat := by
  unfold buildHistogram
  rw [histfold_length, List.length_replicate]

/-- One histogramMax loop step preserves the scan invariant. -/
theorem histInv_step (h : List ℚ) (hnv : NatValued h) (n : ℕ)
    (hn : n < h.length) (s : ℤ × ℕ) (hs : HistInv h n s) :
    HistInv h (n + 1) (histFoldStep h s n) := by
  unfold HistInv at hs ⊢
  obtain ⟨h1, h2, h3, h4⟩ := hs
  unfold histFoldStep
  by_cases hlt : (s.1 : ℚ) < h.getD n 0
  · rw [if_pos hlt]
    have hcast := truncInt_getD_cast h hnv n
    refine ⟨hn, hcast, ?_, ?_⟩
    · intro t ht
      show h.getD t 0 ≤ ((truncInt (h.getD n 0) : ℤ) : ℚ)
      rw [hcast]
      rcases Nat.lt_succ_iff_lt_or_eq.mp ht with ht' | ht'
      · exact le_of_lt (lt_of_le_of_lt (h3 t ht') hlt)
      · subst ht'
        exact le_refl _
    · intro t ht
      show h.getD t 0 < ((truncInt (h.getD n 0) : ℤ) : ℚ)
      rw [hcast]
      exact lt_of_le_of_lt (h3 t ht) hlt
  · rw [if_neg hlt]
    refine ⟨h1, h2, ?_, h4⟩
    intro t ht
    rcases Nat.lt_succ_iff_lt_or_eq.mp ht with ht' | ht'
    · exact h3 t ht'
    · subst ht'
      exact not_lt.mp hlt

/-- The histogramMax scan invariant holds after every prefix of the loop. -/
theorem histFold_inv (h : List ℚ) (hnv : NatValued h) (hne : 0 < h.length) :
    ∀ n, n ≤ h.length →
      HistInv h n ((List.range n).foldl (histFoldStep h)
        (truncInt (h.getD 0 0), 0)) := by
  intro n
  induction n with
  | zero =>
    intro _
    unfold HistInv
    refine ⟨hne, truncInt_getD_cast h hnv 0, ?_, ?_⟩
    · intro t ht
      exact absurd ht (Nat.not_lt_zero t)
    · intro t ht
      exact absurd ht (Nat.not_lt_zero t)
  | succ n ih =>
    intro hl
    rw [List.range_succ, List.foldl_append, List.foldl_cons, List.foldl_nil]
    exact histInv_step h hnv n (by omega) _ (ih (by omega))

/-- histogramMax returns the index of the first bin attaining the maximum,
for any nonempty natural-valued histogram. -/
theorem histogramMax_firstMax (h : List ℚ) (hnv : NatValued h)
    (hne : 0 < h.length) : IsFirstMaxIndex h (histogramMax h).2 := by
  have hinv := histFold_inv h hnv hne h.length le_rfl
  unfold HistInv at hinv
  unfold histogramMax
  obtain ⟨h1, h2, h3, h4⟩ := hinv
  unfold IsFirstMaxIndex
  refine ⟨h1, ?_, ?_⟩
  · intro t ht
    calc h.getD t 0
        ≤ (((List.range h.length).foldl (histFoldStep h)
            (truncInt (h.getD 0 0), 0)).1 : ℚ) := h3 t ht
      _ = _ := h2
  · intro t ht
    calc h.getD t 0
        < (((List.range h.length).foldl (histFoldStep h)
            (truncInt (h.getD 0 0), 0)).1 : ℚ) := h4 t ht
      _ = _ := h2
/-- Claim C7: for every keypoint whose orientation window fits, the updated
keypoint's angle is bin_index · 10 + 5 where bin_index is the index of the
first histogram bin attaining the maximum count in index order, and the
assigned orientation lies in [0, 360). -/
theorem computeOrientationHist_first_max_orientation
    (dog_pyr : List (List Mat)) (kps : List KeyPoint) (z : ℕ)
    (kp : KeyPoint) (hkp : kps[z]? = some kp)
    (hfit : windowFits (assignedImage dog_pyr kp) (truncInt kp.x)
      (truncInt kp.y) = true) :
    (computeOrientationHist dog_pyr kps).1[z]?
        = some { kp with angle := assignedAngle dog_pyr kp }
    ∧ IsFirstMaxIndex (orientationHisto dog_pyr kp)
        (histogramMax (orientationHisto dog_pyr kp)).2
    ∧ 0 ≤ assignedAngle dog_pyr kp ∧ assignedAngle dog_pyr kp < 360 := by
  have hlen : (orientationHisto dog_pyr kp).length = 36 := by
    unfold orientationHisto
    rw [buildHistogram_length]
    decide
  have hfm : IsFirstMaxIndex (orientationHisto dog_pyr kp)
      (histogramMax (orientationHisto dog_pyr kp)).2 :=
    histogramMax_firstMax _
      (natValued_buildHistogram _ _ _) (by rw [hlen]; omega)
  have hidx : (histogramMax (orientationHisto dog_pyr kp)).2 < 36 := by
    have h1 := hfm.1
    rwa [hlen] at h1
  refine ⟨?_, hfm, ?_, ?_⟩
  · show (kps.map fun q => (processKeypoint dog_pyr q).1)[z]? = _
    rw [List.getElem?_map, hkp]
    show some (processKeypoint dog_pyr kp).1 = _
    simp only [processKeypoint]
    rw [if_pos hfit]
    rfl
  · unfold assignedAngle
    have h0 : (0 : ℤ) ≤ ((histogramMax (orientationHisto dog_pyr kp)).2 : ℤ)
        * 10 + 10 / 2 := by
      omega
    exact_mod_cast h0
  · unfold assignedAngle
    have h1 : ((histogramMax (orientationHisto dog_pyr kp)).2 : ℤ) < 36 := by
      exact_mod_cast hidx
    have h2 : ((histogramMax (orientationHisto dog_pyr kp)).2 : ℤ)
        * 10 + 10 / 2 < 360 := by
      omega
    exact_mod_cast h2

/-- Claim C7 (witness): the orientation-assignment property applied to a
centred keypoint of an 18×18 zero image. -/
theorem computeOrientationHist_first_max_orientation_witness :
    ([kpCentered][0]? = some kpCentered)
    ∧ windowFits (assignedImage dogSmall kpCentered) (truncInt kpCentered.x)
        (truncInt kpCentered.y) = true
    ∧ ((computeOrientationHist dogSmall [kpCentered]).1[0]?
          = some { kpCentered with angle := assignedAngle dogSmall kpCentered }
      ∧ IsFirstMaxIndex (orientationHisto dogSmall kpCentered)
          (histogramMax (orientationHisto dogSmall kpCentered)).2
      ∧ 0 ≤ assignedAngle dogSmall kpCentered
      ∧ assignedAngle dogSmall kpCentered < 360) := by
  have h2 : windowFits (assignedImage dogSmall kpCentered)
      (truncInt kpCentered.x) (truncInt kpCentered.y) = true := by
    norm_num [windowFits, assignedImage, imgAtZ, truncInt, kpCentered,
      dogSmall, zeroMat, SIFT_HIST_BOREDER]
  exact ⟨rfl, h2,
    computeOrientationHist_first_max_orientation dogSmall [kpCentered] 0
      kpCentered rfl h2⟩

/-- The gradient (and magnitude) patch lists accumulated by the orientation
stage contain exactly one entry per keypoint whose window test passes. -/
theorem patches_count (dog_pyr : List (List Mat)) (g : Mat × Mat → Mat) :
    ∀ kps : List KeyPoint,
      (kps.filterMap fun kp => ((processKeypoint dog_pyr kp).2).map g).length
        = kps.countP (fun k =>
            windowFits (assignedImage dog_pyr k) (truncInt k.x)
              (truncInt k.y)) := by
  intro kps
  induction kps with
  | nil => rfl
  | cons a l ih =>
    rw [List.filterMap_cons, List.countP_cons]
    by_cases hfit : windowFits (assignedImage dog_pyr a) (truncInt a.x)
        (truncInt a.y) = true
    · have hsome : (processKeypoint dog_pyr a).2
          = some (gradPatch (assignedImage dog_pyr a) (truncInt a.x)
              (truncInt a.y),
            magPatch (assignedImage dog_pyr a) (truncInt a.x)
              (truncInt a.y)) := by
        simp only [processKeypoint]
        rw [if_pos hfit]
      rw [hsome]
      simp [ih, hfit]
    · have hnone : (processKeypoint dog_pyr a).2 = none := by
        simp only [processKeypoint]
        rw [if_neg (by simp [Bool.not_eq_true] at hfit ⊢; exact hfit)]
      rw [hnone]
      simp [ih, hfit]

/-- Claim C8: a keypoint whose window test fails is left in the collection
unchanged (same position, interval label and default angle), the collection
keeps its length, and the patch lists hold entries only for keypoints whose
window test passes — none for this keypoint. -/
theorem computeOrientationHist_boundary_keypoint_kept
    (dog_pyr : List (List Mat)) (kps : List KeyPoint) (z : ℕ)
    (kp : KeyPoint) (hkp : kps[z]? = some kp)
    (hfit : windowFits (assignedImage dog_pyr kp) (truncInt kp.x)
      (truncInt kp.y) = false) :
    (computeOrientationHist dog_pyr kps).1[z]? = some kp
    ∧ (computeOrientationHist dog_pyr kps).1.length = kps.length
    ∧ (computeOrientationHist dog_pyr kps).2.1.length
        = kps.countP (fun k =>
            windowFits (assignedImage dog_pyr k) (truncInt k.x)
              (truncInt k.y))
    ∧ (computeOrientationHist dog_pyr kps).2.2.length
        = kps.countP (fun k =>
            windowFits (assignedImage dog_pyr k) (truncInt k.x)
              (truncInt k.y)) := by
  refine ⟨?_, ?_, patches_count dog_pyr Prod.fst kps,
    patches_count dog_pyr Prod.snd kps⟩
  · show (kps.map fun q => (processKeypoint dog_pyr q).1)[z]? = some kp
    rw [List.getElem?_map, hkp]
    have hid : (processKeypoint dog_pyr kp).1 = kp := by
      simp only [processKeypoint]
      rw [if_neg (by simp [hfit])]
    rw [Option.map_some', hid]
  · show (kps.map fun q => (processKeypoint dog_pyr q).1).length = kps.length
    exact List.length_map _ _

/-- Claim C8 (witness): the boundary behaviour applied to a keypoint one
pixel from the corner of a 4×4 image. -/
theorem computeOrientationHist_boundary_keypoint_kept_witness :
    ([kpCorner][0]? = some kpCorner)
    ∧ windowFits (assignedImage dogTiny kpCorner) (truncInt kpCorner.x)
        (truncInt kpCorner.y) = false
    ∧ ((computeOrientationHist dogTiny [kpCorner]).1[0]? = some kpCorner
      ∧ (computeOrientationHist dogTiny [kpCorner]).1.length
          = ([kpCorner] : List KeyPoint).length
      ∧ (computeOrientationHist dogTiny [kpCorner]).2.1.length
          = ([kpCorner] : List KeyPoint).countP (fun k =>
              windowFits (assignedImage dogTiny k) (truncInt k.x)
                (truncInt k.y))
      ∧ (computeOrientationHist dogTiny [kpCorner]).2.2.length
          = ([kpCorner] : List KeyPoint).countP (fun k =>
              windowFits (assignedImage dogTiny k) (truncInt k.x)
                (truncInt k.y))) := by
  have h2 : windowFits (assignedImage dogTiny kpCorner)
      (truncInt kpCorner.x) (truncInt kpCorner.y) = false := by
    norm_num [windowFits, assignedImage, imgAtZ, truncInt, kpCorner,
      dogTiny, zeroMat, SIFT_HIST_BOREDER]
  exact ⟨rfl, h2,
    computeOrientationHist_boundary_keypoint_kept dogTiny [kpCorner] 0
      kpCorner rfl h2⟩
